import Mathlib

/-!
Verification of the agentic-monopoly repository against its specification.

Each section embeds the relevant part of the source (frontend TypeScript/JSX,
or — where only repository documentation exists — behaviour modelled from the
spec) as executable Lean definitions, and proves or refutes the claims about
them.  Strings manipulated character-by-character are modelled as `List Char`.
-/

/-! ## URL joining (`src/unnamed/part_000` and `part_001`, config/api) -/

/-- Character-list model of JS strings for the URL helpers. -/
abbrev Str := List Char

/-- `baseUrl.replace(/\/$/, '')` — removes a single trailing slash, if any. -/
def stripTrailingSlash (b : Str) : Str :=
  if b.getLast? = some '/' then b.dropLast else b

/-- `endpoint.startsWith('/') ? endpoint : '/' + endpoint`. -/
def ensureLeadingSlash (e : Str) : Str :=
  if e.head? = some '/' then e else '/' :: e

/-- `joinUrl` from `part_001`: clean base concatenated with clean endpoint. -/
def joinUrl (baseUrl endpoint : Str) : Str :=
  stripTrailingSlash baseUrl ++ ensureLeadingSlash endpoint

/-- The original `getApiUrl` from `part_000`: naive template concatenation. -/
def getApiUrlOriginal (base endpoint : Str) : Str :=
  base ++ endpoint

/-- The revised `getApiUrl` from `part_001`, built on `joinUrl`. -/
def getApiUrl (base endpoint : Str) : Str :=
  joinUrl base endpoint

/-- Endpoint normalised to exactly one leading slash (what claim C8 asserts
`joinUrl` produces; this follows the claim's words, for comparison). -/
def endpointOneSlash (e : Str) : Str :=
  '/' :: e.dropWhile (fun c => c = '/')

/-- Number of leading slashes of a character list. -/
def countLeadingSlashes (e : Str) : Nat :=
  (e.takeWhile (fun c => c = '/')).length

/-! ## Board grid layout (`src/frontend/app/page.tsx`, `getGridPosition`) -/

/-- `getGridPosition` from the `MonopolyBoard` component: maps a linear square
id (0–39) to an `[row, col]` cell of the 11×11 grid, `null` otherwise. -/
def getGridPosition (squareId : Int) : Option (Int × Int) :=
  if 0 ≤ squareId ∧ squareId ≤ 10 then some (10, 10 - squareId)
  else if 11 ≤ squareId ∧ squareId ≤ 20 then some (10 - (squareId - 10), 0)
  else if 21 ≤ squareId ∧ squareId ≤ 30 then some (0, squareId - 20)
  else if 31 ≤ squareId ∧ squareId ≤ 39 then some (squareId - 30, 10)
  else none

/-- A cell of the 11×11 grid lying on its perimeter. -/
def isPerimeterCell : Option (Int × Int) → Bool
  | none => false
  | some (r, c) =>
    decide (0 ≤ r ∧ r ≤ 10 ∧ 0 ≤ c ∧ c ≤ 10 ∧ (r = 0 ∨ r = 10 ∨ c = 0 ∨ c = 10))

/-! ## Game log (`src/frontend/app/game/[gameId]/page.jsx`, `appendToLog`) -/

/-- `MAX_LOG_ENTRIES` from the game page. -/
def MAX_LOG_ENTRIES : Nat := 200

/-- `appendToLog`: append the new entry; if the result exceeds `maxEntries`,
keep only the last `maxEntries` entries (`slice(length - maxEntries)`). -/
def appendToLog {α : Type} (prevLog : List α) (newEntry : α)
    (maxEntries : Nat := MAX_LOG_ENTRIES) : List α :=
  let updatedLog := prevLog ++ [newEntry]
  if updatedLog.length > maxEntries then
    updatedLog.drop (updatedLog.length - maxEntries)
  else
    updatedLog

/-! ### First theorems -/

/-- The last element survives dropping fewer elements than the length. -/
theorem getLast?_drop_of_lt {α : Type} (l : List α) (n : Nat) (h : n < l.length) :
    (l.drop n).getLast? = l.getLast? := by
  induction l generalizing n with
  | nil => simp at h
  | cons a t ih =>
    cases n with
    | zero => rfl
    | succ m =>
      simp only [List.drop_succ_cons]
      rw [ih m (by simpa using h)]
      cases t with
      | nil => simp at h
      | cons b t' => simp [List.getLast?_cons_cons]

/-- C9: `appendToLog` appends the entry at the end, keeps a suffix of the
appended list, caps the length at `MAX_LOG_ENTRIES = 200`, and the new entry
is always the last element. -/
theorem appendToLog_spec {α : Type} (prevLog : List α) (newEntry : α) :
    (appendToLog prevLog newEntry).length = min (prevLog.length + 1) MAX_LOG_ENTRIES ∧
    (appendToLog prevLog newEntry).getLast? = some newEntry ∧
    (appendToLog prevLog newEntry) <:+ (prevLog ++ [newEntry]) := by
  unfold appendToLog MAX_LOG_ENTRIES
  set u := prevLog ++ [newEntry] with hu
  have hlen : u.length = prevLog.length + 1 := by simp [hu]
  have hlast : u.getLast? = some newEntry := by simp [hu]
  by_cases h : u.length > 200
  · simp only [h, if_pos]
    refine ⟨?_, ?_, ?_⟩
    · rw [List.length_drop, hlen]; omega
    · rw [getLast?_drop_of_lt u (u.length - 200) (by omega), hlast]
    · exact List.drop_suffix _ _
  · simp only [h, if_neg, not_false_iff]
    refine ⟨?_, hlast, List.suffix_refl u⟩
    rw [hlen]; omega

/-- C6: every square id 0–39 lands on a perimeter cell of the 11×11 grid,
distinct ids map to distinct cells, the 40 ids cover all 40 perimeter cells,
and every id outside 0..39 maps to `null`. -/
theorem getGridPosition_spec :
    (∀ i : Fin 40, isPerimeterCell (getGridPosition (i.val : Int)) = true) ∧
    (∀ i j : Fin 40,
      getGridPosition (i.val : Int) = getGridPosition (j.val : Int) → i = j) ∧
    (∀ r c : Fin 11, (r.val = 0 ∨ r.val = 10 ∨ c.val = 0 ∨ c.val = 10) →
      ∃ i : Fin 40, getGridPosition (i.val : Int) = some ((r.val : Int), (c.val : Int))) ∧
    (∀ id : Int, id < 0 ∨ 39 < id → getGridPosition id = none) := by
  refine ⟨by decide, by decide, by decide, ?_⟩
  intro id h
  unfold getGridPosition
  rw [if_neg (by omega), if_neg (by omega), if_neg (by omega), if_neg (by omega)]

/-- C6 witness: id 41 is off the board, and some square occupies cell (0,5). -/
theorem getGridPosition_spec_witness :
    getGridPosition 41 = none ∧
    ∃ i : Fin 40, getGridPosition (i.val : Int) = some ((0 : Int), (5 : Int)) := by
  refine ⟨getGridPosition_spec.2.2.2 41 (by omega), ?_⟩
  have h := getGridPosition_spec.2.2.1 (⟨0, by omega⟩ : Fin 11) (⟨5, by omega⟩ : Fin 11)
    (by left; rfl)
  simpa using h

/-- If `takeWhile p` is empty, the list is unchanged by `dropWhile p` and its
head fails `p`. -/
theorem dropWhile_eq_self_of_takeWhile_nil {p : Char → Bool} (t : Str)
    (h : t.takeWhile p = []) :
    t.dropWhile p = t ∧ ∀ x, t.head? = some x → p x = false := by
  cases t with
  | nil => exact ⟨rfl, by intro x hx; cases hx⟩
  | cons b t' =>
    by_cases hb : p b
    · simp [List.takeWhile_cons, hb] at h
    · refine ⟨by simp [List.dropWhile_cons, hb], ?_⟩
      intro x hx
      simp only [List.head?_cons, Option.some.injEq] at hx
      rw [← hx]
      exact Bool.eq_false_iff.mpr hb

/-- C8 counterexample: on endpoint `"//x"` the revised `getApiUrl` keeps both
leading slashes, so it is not the base followed by the endpoint with exactly
one leading slash. -/
theorem getApiUrl_oneSlash_counterexample :
    ¬ (getApiUrl ['b'] ['/', '/', 'x'] =
        stripTrailingSlash ['b'] ++ endpointOneSlash ['/', '/', 'x']) := by
  decide

/-- C8 amended: the revised `getApiUrl` is the base with a single trailing
slash removed followed by the endpoint with at least one leading slash; the
junction has exactly one slash when the cleaned base does not end in a slash
and the endpoint has at most one leading slash; and when the base has no
trailing slash and the endpoint begins with a slash it equals the original
naive-concatenation `getApiUrl`. -/
theorem getApiUrl_joinUrl_spec (b e : Str) :
    (¬ b.getLast? = some '/' → e.head? = some '/' →
      getApiUrl b e = getApiUrlOriginal b e) ∧
    (countLeadingSlashes e ≤ 1 →
      joinUrl b e = stripTrailingSlash b ++ endpointOneSlash e ∧
      (e.dropWhile (fun c => c = '/')).head? ≠ some '/') := by
  constructor
  · intro h1 h2
    unfold getApiUrl joinUrl getApiUrlOriginal stripTrailingSlash ensureLeadingSlash
    rw [if_neg h1, if_pos h2]
  · intro h2
    unfold joinUrl endpointOneSlash ensureLeadingSlash
    cases e with
    | nil => exact ⟨rfl, by simp⟩
    | cons c t =>
      by_cases hc : c = '/'
      · subst hc
        have htw : t.takeWhile (fun c => c = '/') = [] := by
          unfold countLeadingSlashes at h2
          simp only [List.takeWhile_cons, decide_True] at h2
          by_contra hne
          cases hw : t.takeWhile (fun c => c = '/') with
          | nil => exact hne hw
          | cons y ys => rw [hw] at h2; simp at h2
        obtain ⟨hdw, hhd⟩ := dropWhile_eq_self_of_takeWhile_nil t htw
        rw [if_pos (by simp)]
        simp only [List.dropWhile_cons, decide_True, hdw]
        refine ⟨rfl, ?_⟩
        intro hcontra
        have := hhd '/' hcontra
        simp at this
      · have hcb : (decide (c = '/')) = false := by simp [hc]
        rw [if_neg (by simp [hc])]
        simp only [List.dropWhile_cons, hcb, List.head?_cons]
        exact ⟨rfl, by simp [hc]⟩

/-- C8 amended witness: concrete junctions — no-trailing-slash base with a
slashed endpoint matches the original helper, and a slash-terminated base with
a bare endpoint produces exactly one junction slash. -/
theorem getApiUrl_joinUrl_spec_witness :
    getApiUrl ['b'] ['/', 'x'] = getApiUrlOriginal ['b'] ['/', 'x'] ∧
    joinUrl ['b', '/'] ['x'] = stripTrailingSlash ['b', '/'] ++ endpointOneSlash ['x'] := by
  refine ⟨(getApiUrl_joinUrl_spec ['b'] ['/', 'x']).1 (by decide) (by decide), ?_⟩
  exact ((getApiUrl_joinUrl_spec ['b', '/'] ['x']).2 (by decide)).1

/-! ## Lobby game card (`src/frontend/app/components/GameTableCard.tsx`) -/

/-- `turn_count || 1` — JS falsy coalescing on the optional turn count. -/
def turnCountOrOne : Option Nat → Nat
  | some n => if n = 0 then 1 else n
  | none => 1

/-- The `switch(status)` of `GameTableCard` mapping a game status to the
displayed text and its colour. -/
def statusPresentation (status : String) (turn_count : Option Nat) : String × String :=
  if status = "in_progress" then
    ("In Progress (Turn: " ++ toString (turnCountOrOne turn_count) ++ ")", "#00FF00")
  else if status = "completed" ∨ status = "max_turns_reached" ∨
      status = "aborted_no_winner" then
    ("Finished", "#FF6347")
  else if status = "initializing" then
    ("Initializing...", "#FFFF00")
  else if status = "waiting_for_players" then
    ("Waiting for Players...", "#FFA500")
  else
    ((status.map (fun c => if c = '_' then ' ' else c)).toUpper, "#BBBBBB")

/-- C5 counterexample: the card shows exactly the same text and colour for a
game that hit the turn budget and for a completed (won) game. -/
theorem statusPresentation_counterexample :
    statusPresentation "max_turns_reached" (some 12) =
      statusPresentation "completed" (some 12) := by
  decide

/-- C5 amended: `max_turns_reached` and `completed` are both presented as
"Finished" in tomato red — identical to each other, distinct from the
non-terminal presentations — so the terminal state is distinguished from a
running game only, not from a win. -/
theorem statusPresentation_spec (tc : Option Nat) :
    statusPresentation "max_turns_reached" tc = ("Finished", "#FF6347") ∧
    statusPresentation "completed" tc = ("Finished", "#FF6347") ∧
    (statusPresentation "in_progress" tc).2 = "#00FF00" ∧
    (statusPresentation "waiting_for_players" tc).2 = "#FFA500" ∧
    ("#FF6347" : String) ≠ "#00FF00" ∧ ("#FF6347" : String) ≠ "#FFA500" := by
  refine ⟨?_, ?_, ?_, ?_, by decide, by decide⟩ <;>
    simp [statusPresentation]

/-! ## Lobby `game_added` handling (`src/unnamed/part_002`, `LobbyPage`) -/

/-- The lobby's view of one game, as used by the `game_added` handler. -/
structure GameData where
  game_uid : String
  status : String
deriving DecidableEq, Repr

/-- The `game_added` branch of the lobby WebSocket `onmessage` handler:
replace the whole list if it only holds `fake-` fallback entries, update in
place an entry with the same `game_uid`, otherwise append. -/
def handleGameAdded (prevGames : List GameData) (data : GameData) : List GameData :=
  if prevGames.length > 0 ∧
      prevGames.all (fun g => g.game_uid.startsWith "fake-") then
    [data]
  else if (prevGames.find? (fun g => g.game_uid = data.game_uid)).isSome then
    prevGames.map (fun g => if g.game_uid = data.game_uid then data else g)
  else
    prevGames ++ [data]

/-- C10: `game_added` preserves pairwise-distinct `game_uid`s, and behaves by
cases: fallback-only lists are replaced by the new game, an existing uid is
updated in place without changing the length, and a new uid is appended. -/
theorem handleGameAdded_spec (prevGames : List GameData) (data : GameData)
    (hdist : prevGames.Pairwise (fun a b => a.game_uid ≠ b.game_uid)) :
    (handleGameAdded prevGames data).Pairwise (fun a b => a.game_uid ≠ b.game_uid) ∧
    (prevGames.length > 0 →
      prevGames.all (fun g => g.game_uid.startsWith "fake-") = true →
      handleGameAdded prevGames data = [data]) ∧
    (¬ (prevGames.length > 0 ∧
        prevGames.all (fun g => g.game_uid.startsWith "fake-")) →
      (prevGames.find? (fun g => g.game_uid = data.game_uid)).isSome →
      (handleGameAdded prevGames data).length = prevGames.length) ∧
    (¬ (prevGames.length > 0 ∧
        prevGames.all (fun g => g.game_uid.startsWith "fake-")) →
      prevGames.find? (fun g => g.game_uid = data.game_uid) = none →
      handleGameAdded prevGames data = prevGames ++ [data]) := by
  refine ⟨?_, ?_, ?_, ?_⟩
  · unfold handleGameAdded
    by_cases hfb : prevGames.length > 0 ∧
        prevGames.all (fun g => g.game_uid.startsWith "fake-")
    · rw [if_pos hfb]; exact List.pairwise_singleton _ _
    · rw [if_neg hfb]
      by_cases hfind : (prevGames.find? (fun g => g.game_uid = data.game_uid)).isSome
      · rw [if_pos hfind, List.pairwise_map]
        refine hdist.imp ?_
        intro a b hab
        have huid : ∀ g : GameData,
            (if g.game_uid = data.game_uid then data else g).game_uid = g.game_uid := by
          intro g
          by_cases hg : g.game_uid = data.game_uid
          · rw [if_pos hg, hg]
          · rw [if_neg hg]
        rw [huid a, huid b]; exact hab
      · rw [if_neg hfind]
        rw [List.pairwise_append]
        refine ⟨hdist, List.pairwise_singleton _ _, ?_⟩
        intro a ha b hb
        rw [List.mem_singleton] at hb
        subst hb
        rw [Option.not_isSome_iff_eq_none, List.find?_eq_none] at hfind
        have := hfind a ha
        simpa using this
  · intro hlen hall
    unfold handleGameAdded
    rw [if_pos ⟨hlen, hall⟩]
  · intro hfb hfind
    unfold handleGameAdded
    rw [if_neg hfb, if_pos hfind, List.length_map]
  · intro hfb hfind
    unfold handleGameAdded
    rw [if_neg hfb, if_neg (by rw [hfind]; simp)]

/-- C10 witness: adding a game with a fresh uid to a real one-game lobby
appends it and keeps the uids pairwise distinct. -/
theorem handleGameAdded_spec_witness :
    (handleGameAdded [⟨"g1", "in_progress"⟩] ⟨"g2", "waiting_for_players"⟩).Pairwise
      (fun a b => a.game_uid ≠ b.game_uid) ∧
    handleGameAdded [⟨"g1", "in_progress"⟩] ⟨"g2", "waiting_for_players"⟩ =
      [⟨"g1", "in_progress"⟩, ⟨"g2", "waiting_for_players"⟩] := by
  have h := handleGameAdded_spec [⟨"g1", "in_progress"⟩] ⟨"g2", "waiting_for_players"⟩
    (by simp)
  refine ⟨h.1, ?_⟩
  have := h.2.2.2 (by decide) (by decide)
  simpa using this

/-! ## Payment completion wait (modelled; `src/unnamed/part_006` documents
`_wait_for_payment_completion`, whose Python source is not in the repository
snapshot) -/

/-- Status vocabulary of the external payment service, as documented in
`part_006` (unknown statuses collapsed into one constructor). -/
inductive PaymentStatus where
  | created | initiated | pending | processing | approved
  | submitted | pending_confirmation
  | success | completed
  | failed | rejected | cancelled
  | unknownStatus
deriving DecidableEq, Repr

/-- Classification of a polled status into the adapter's three classes
(plus the logged-for-review unknown class). -/
inductive StatusClass where
  | terminalSuccess | terminalFailure | inProgress | unknownClass
deriving DecidableEq, Repr

/-- Modelled from the spec: `part_006`'s status classification — success
states `success`/`completed`; fail states `failed`/`rejected`/`cancelled`;
in-progress states `pending`, `processing`, `initiated`, `created`,
`submitted`, `approved`, `pending_confirmation`; anything else unknown. -/
def classifyStatus : PaymentStatus → StatusClass
  | .success | .completed => .terminalSuccess
  | .failed | .rejected | .cancelled => .terminalFailure
  | .pending | .processing | .initiated | .created
  | .submitted | .approved | .pending_confirmation => .inProgress
  | .unknownStatus => .unknownClass

/-- A status is terminal when it is classified terminal-success or
terminal-failure. -/
def isTerminalStatus (s : PaymentStatus) : Bool :=
  classifyStatus s = .terminalSuccess ∨ classifyStatus s = .terminalFailure

/-- Outcome surfaced by the adapter: a single `settled` success, an upstream
failure, or a timeout failure. -/
inductive PaymentOutcome where
  | settled | failedUpstream | failedTimeout
deriving DecidableEq, Repr

/-- Poll interval in seconds (`part_006`: "Status polling: every 2s"). -/
def PAYMENT_POLL_INTERVAL : Nat := 2

/-- Timeout in seconds (`part_006`: "timeout after 60s"). -/
def PAYMENT_TIMEOUT : Nat := 60

/-- Maximum number of polls before timing out: 60s / 2s = 30. -/
def MAX_PAYMENT_POLLS : Nat := PAYMENT_TIMEOUT / PAYMENT_POLL_INTERVAL

/-- Modelled from the spec: the poll loop of `_wait_for_payment_completion`.
`poll i` is the status returned by the i-th poll of the external service; the
loop stops at the first terminal status, or after `fuel` non-terminal polls
with a timeout failure.  Returns the outcome and the number of polls made. -/
def waitFrom (poll : Nat → PaymentStatus) : Nat → Nat → PaymentOutcome × Nat
  | i, 0 => (.failedTimeout, i)
  | i, fuel + 1 =>
    match classifyStatus (poll i) with
    | .terminalSuccess => (.settled, i + 1)
    | .terminalFailure => (.failedUpstream, i + 1)
    | _ => waitFrom poll (i + 1) fuel

/-- Modelled from the spec: `_wait_for_payment_completion` — poll every 2s,
up to 60s, mapping the first terminal status to a single outcome. -/
def waitForPaymentCompletion (poll : Nat → PaymentStatus) : PaymentOutcome × Nat :=
  waitFrom poll 0 MAX_PAYMENT_POLLS

/-- The statuses the wait loop actually consumes: every polled status up to
and including the first terminal one (or all of them, on timeout). -/
def pollTraceFrom (poll : Nat → PaymentStatus) : Nat → Nat → List PaymentStatus
  | _, 0 => []
  | i, fuel + 1 =>
    let s := poll i
    if isTerminalStatus s then [s] else s :: pollTraceFrom poll (i + 1) fuel

/-- The full consumed trace of a payment wait. -/
def pollTrace (poll : Nat → PaymentStatus) : List PaymentStatus :=
  pollTraceFrom poll 0 MAX_PAYMENT_POLLS

/-- The polled status sequence of spec Scenario D. -/
def scenarioD : List PaymentStatus :=
  [.submitted, .pending, .processing, .approved, .submitted,
   .pending_confirmation, .success]

/-- C1: on Scenario D's poll sequence every status before `success` is
classified non-terminal (so the wait keeps polling), the wait consumes exactly
that sequence, reports the single terminal `settled` outcome after 7 polls,
and exactly one terminal status occurs in the consumed trace — so the
dependent game consequence fires exactly once. -/
theorem scenarioD_single_settled :
    waitForPaymentCompletion (fun i => scenarioD.getD i .pending) =
      (.settled, 7) ∧
    pollTrace (fun i => scenarioD.getD i .pending) = scenarioD ∧
    scenarioD.dropLast.all (fun s => ¬ isTerminalStatus s) = true ∧
    (pollTrace (fun i => scenarioD.getD i .pending)).countP isTerminalStatus = 1 := by
  decide

/-- C3: the payment wait always stops within 30 polls (60 seconds at one poll
per 2 seconds), and when none of the first 30 polled statuses is terminal it
returns a timeout failure instead of polling forever. -/
theorem waitForPaymentCompletion_terminates (poll : Nat → PaymentStatus) :
    (waitForPaymentCompletion poll).2 ≤ MAX_PAYMENT_POLLS ∧
    PAYMENT_POLL_INTERVAL * (waitForPaymentCompletion poll).2 ≤ PAYMENT_TIMEOUT ∧
    ((∀ i < MAX_PAYMENT_POLLS, ¬ isTerminalStatus (poll i)) →
      waitForPaymentCompletion poll = (.failedTimeout, MAX_PAYMENT_POLLS)) := by
  have hgen : ∀ fuel i, (waitFrom poll i fuel).2 ≤ i + fuel := by
    intro fuel
    induction fuel with
    | zero => intro i; simp [waitFrom]
    | succ n ih =>
      intro i
      unfold waitFrom
      cases hc : classifyStatus (poll i) with
      | terminalSuccess => simp
      | terminalFailure => simp
      | inProgress => simp only; have := ih (i + 1); omega
      | unknownClass => simp only; have := ih (i + 1); omega
  have hto : ∀ fuel i, (∀ j < i + fuel, ¬ isTerminalStatus (poll j)) → i ≤ i →
      waitFrom poll i fuel = (.failedTimeout, i + fuel) := by
    intro fuel
    induction fuel with
    | zero => intro i _ _; simp [waitFrom]
    | succ n ih =>
      intro i hnt _
      unfold waitFrom
      have hi : ¬ isTerminalStatus (poll i) := hnt i (by omega)
      unfold isTerminalStatus at hi
      simp only [decide_eq_true_eq, not_or] at hi
      cases hc : classifyStatus (poll i) with
      | terminalSuccess => exact absurd hc hi.1
      | terminalFailure => exact absurd hc hi.2
      | inProgress =>
        simp only
        have := ih (i + 1) (by intro j hj; exact hnt j (by omega)) (le_refl _)
        rw [this]; congr 1; omega
      | unknownClass =>
        simp only
        have := ih (i + 1) (by intro j hj; exact hnt j (by omega)) (le_refl _)
        rw [this]; congr 1; omega
  refine ⟨?_, ?_, ?_⟩
  · have := hgen MAX_PAYMENT_POLLS 0
    unfold waitForPaymentCompletion
    omega
  · have := hgen MAX_PAYMENT_POLLS 0
    unfold waitForPaymentCompletion PAYMENT_POLL_INTERVAL PAYMENT_TIMEOUT
    unfold MAX_PAYMENT_POLLS PAYMENT_TIMEOUT PAYMENT_POLL_INTERVAL at this ⊢
    omega
  · intro hnt
    unfold waitForPaymentCompletion
    have := hto MAX_PAYMENT_POLLS 0 (by intro j hj; exact hnt j (by simpa using hj))
      (le_refl 0)
    simpa using this

/-- C3 witness: a payment stuck forever in `processing` times out after
exactly 30 polls with a failure outcome. -/
theorem waitForPaymentCompletion_terminates_witness :
    waitForPaymentCompletion (fun _ => .processing) = (.failedTimeout, 30) := by
  have h := (waitForPaymentCompletion_terminates (fun _ => .processing)).2.2
    (by decide)
  simpa [MAX_PAYMENT_POLLS, PAYMENT_TIMEOUT, PAYMENT_POLL_INTERVAL] using h

/-- Modelled from the spec: the documented status flow of `part_006` —
`created/initiated → pending → processing → approved → submitted →
pending_confirmation → success`, with the failure branch (`failed/rejected`)
leaving from `processing`; terminal states have no successors. -/
def paymentNext : PaymentStatus → List PaymentStatus
  | .created => [.pending]
  | .initiated => [.pending]
  | .pending => [.processing]
  | .processing => [.approved, .failed, .rejected]
  | .approved => [.submitted]
  | .submitted => [.pending_confirmation]
  | .pending_confirmation => [.success]
  | _ => []

/-- C4 counterexample: in the documented lifecycle `approved` is followed by
the non-terminal `submitted` (and then `pending_confirmation`), so `approved`
is not the last non-terminal state before settlement. -/
theorem paymentFlow_counterexample :
    PaymentStatus.submitted ∈ paymentNext .approved ∧
    classifyStatus .submitted = .inProgress ∧
    PaymentStatus.pending_confirmation ∈ paymentNext .submitted ∧
    classifyStatus .pending_confirmation = .inProgress := by
  decide

/-- C4 amended: the lifecycle is `created/initiated → pending → processing →
approved → submitted → pending_confirmation → success` (failures branching
from `processing`): the Scenario-D chain is a path of the documented flow,
every state strictly before `success` on it is non-terminal, `success` is
terminal, and `pending_confirmation` — not `approved` — is the last
non-terminal state, the only one whose every successor is terminal. -/
theorem paymentFlow_spec :
    List.Chain' (fun a b => b ∈ paymentNext a)
      [.created, .pending, .processing, .approved, .submitted,
       .pending_confirmation, .success] ∧
    ([PaymentStatus.created, .pending, .processing, .approved, .submitted,
       .pending_confirmation].all (fun s => classifyStatus s = .inProgress)) = true ∧
    classifyStatus .success = .terminalSuccess ∧
    (∀ s ∈ paymentNext .pending_confirmation, isTerminalStatus s = true) ∧
    ¬ (∀ s ∈ paymentNext .approved, isTerminalStatus s = true) := by
  refine ⟨?_, by decide, by decide, by decide, by decide⟩
  simp [List.chain'_cons, paymentNext]

/-! ## Trade rejection lineage (modelled; the trade manager's source is not in
the repository snapshot — `src/docs/TRADE_TEST_SUMMARY.md` and
`src/docs/GAME_LOGIC_REPORT.md` document `MAX_TRADE_REJECTIONS = 3`) -/

/-- Configured maximum rejections per trade lineage
(`GAME_LOGIC_REPORT.md`: `MAX_TRADE_REJECTIONS = 3`). -/
def MAX_TRADE_REJECTIONS : Nat := 3

/-- A trade lineage: an original offer plus all counters, sharing one
rejection counter, with a closed flag. -/
structure TradeLineage where
  rejections : Nat
  closed : Bool
deriving DecidableEq, Repr

/-- A freshly opened negotiation lineage. -/
def freshLineage : TradeLineage := ⟨0, false⟩

/-- Modelled from the spec: a `reject` on an open lineage increments the
shared rejection counter by one and closes the lineage exactly when the
counter reaches `MAX_TRADE_REJECTIONS`; a closed lineage admits no further
actions. -/
def rejectOffer (t : TradeLineage) : TradeLineage :=
  if t.closed then t
  else
    let r := t.rejections + 1
    ⟨r, decide (MAX_TRADE_REJECTIONS ≤ r)⟩

/-- C2: on an open lineage each reject increments the rejection count by
exactly 1; starting from a fresh lineage, after `n` rejects the count is
`min n 3` and the lineage is closed exactly when the count has reached 3 —
never at a lower count, never at a higher one. -/
theorem rejectOffer_spec :
    (∀ t : TradeLineage, t.closed = false →
      (rejectOffer t).rejections = t.rejections + 1) ∧
    (∀ n : Nat, (rejectOffer^[n] freshLineage).rejections = min n MAX_TRADE_REJECTIONS ∧
      ((rejectOffer^[n] freshLineage).closed = true ↔ MAX_TRADE_REJECTIONS ≤ n)) := by
  have hstepClosed : ∀ t : TradeLineage, t.closed = true → rejectOffer t = t := by
    intro t ht
    unfold rejectOffer
    rw [if_pos ht]
  have hstepOpen : ∀ t : TradeLineage, t.closed = false →
      rejectOffer t = ⟨t.rejections + 1, decide (MAX_TRADE_REJECTIONS ≤ t.rejections + 1)⟩ := by
    intro t ht
    unfold rejectOffer
    rw [if_neg (by simp [ht])]
  constructor
  · intro t ht
    rw [hstepOpen t ht]
  · intro n
    induction n with
    | zero => simp [freshLineage, MAX_TRADE_REJECTIONS]
    | succ m ih =>
      rw [Function.iterate_succ_apply']
      obtain ⟨ihr, ihc⟩ := ih
      by_cases hm : MAX_TRADE_REJECTIONS ≤ m
      · have hcl : (rejectOffer^[m] freshLineage).closed = true := ihc.mpr hm
        rw [hstepClosed _ hcl]
        unfold MAX_TRADE_REJECTIONS at hm ihr ihc ⊢
        refine ⟨by rw [ihr]; omega, ?_⟩
        rw [ihc]; constructor <;> intro <;> omega
      · have hcl : (rejectOffer^[m] freshLineage).closed = false := by
          cases hcc : (rejectOffer^[m] freshLineage).closed
          · rfl
          · exact absurd (ihc.mp hcc) hm
        rw [hstepOpen _ hcl]
        unfold MAX_TRADE_REJECTIONS at hm ihr ⊢
        simp only
        refine ⟨by rw [ihr]; omega, ?_⟩
        rw [ihr]
        constructor
        · intro h
          simp only [decide_eq_true_eq] at h
          omega
        · intro h
          simp only [decide_eq_true_eq]
          omega

/-- C2 witness: the third reject on a fresh lineage closes it with count 3;
the second leaves it open at count 2; a reject on an open lineage with one
rejection yields two. -/
theorem rejectOffer_spec_witness :
    (rejectOffer (⟨1, false⟩ : TradeLineage)).rejections = 2 ∧
    (rejectOffer^[2] freshLineage).closed = false ∧
    (rejectOffer^[3] freshLineage).closed = true ∧
    (rejectOffer^[3] freshLineage).rejections = 3 ∧
    (rejectOffer^[5] freshLineage).rejections = 3 := by
  refine ⟨rejectOffer_spec.1 ⟨1, false⟩ rfl, ?_, ?_, ?_, ?_⟩
  · have h := (rejectOffer_spec.2 2).2
    cases hc : (rejectOffer^[2] freshLineage).closed
    · rfl
    · have := h.mp hc; simp [MAX_TRADE_REJECTIONS] at this
  · exact (rejectOffer_spec.2 3).2.mpr (by simp [MAX_TRADE_REJECTIONS])
  · have := (rejectOffer_spec.2 3).1; simpa [MAX_TRADE_REJECTIONS] using this
  · have := (rejectOffer_spec.2 5).1; simpa [MAX_TRADE_REJECTIONS] using this

/-! ## Hover rent display (`src/frontend/app/game/[gameId]/page.jsx`,
`handleSquareHover`) -/

/-- The square types distinguished by `handleSquareHover`. -/
inductive SquareType where
  | PROPERTY | RAILROAD | UTILITY | INCOME_TAX | LUXURY_TAX | OTHER
deriving DecidableEq, Repr

/-- A board square as delivered by the board layout. -/
structure BoardSquare where
  id : Nat
  type : SquareType
  price : Option Nat
  tax_amount : Option Nat
  rent_levels : List Nat
  rent_multipliers : List Nat
deriving DecidableEq, Repr

/-- Per-owned-square data found in a player card's `board_squares`. -/
structure OwnedSquareData where
  id : Nat
  is_mortgaged : Bool
  num_houses : Nat
deriving DecidableEq, Repr

/-- A player card, as scanned by `handleSquareHover`. -/
structure PlayerCard where
  my_player_id : Nat
  my_properties_owned_ids : List Nat
  board_squares : List OwnedSquareData
deriving DecidableEq, Repr

/-- The owner scan: the first player card whose owned-ids list contains the
square id. -/
def findOwnerCard (playerCards : List PlayerCard) (sqId : Nat) : Option PlayerCard :=
  playerCards.find? (fun p => p.my_properties_owned_ids.contains sqId)

/-- The `boardLayout.forEach` count of squares of a given type among the
owner's owned ids. -/
def countOwnedOfType (boardLayout : List BoardSquare) (t : SquareType)
    (ownedIds : List Nat) : Nat :=
  (boardLayout.filter (fun s => s.type = t ∧ ownedIds.contains s.id)).length

/-- JS template interpolation of a possibly-undefined number. -/
def jsOptNat : Option Nat → String
  | some n => toString n
  | none => "undefined"

/-- `details.price ? \x7bPrice: $...\x7d : "N/A"` — 0 and undefined are falsy. -/
def priceDisplay : Option Nat → String
  | some p => if p = 0 then "N/A" else "Price: $" ++ toString p
  | none => "N/A"

/-- The `current_rent_display` computed by `handleSquareHover`: owner scan,
mortgage check, then the PROPERTY / RAILROAD / UTILITY / tax branches. -/
def currentRentDisplay (playerCards : List PlayerCard)
    (boardLayout : List BoardSquare) (sq : BoardSquare) : String :=
  let ownerCard := findOwnerCard playerCards sq.id
  let ownedPropData : Option OwnedSquareData :=
    match ownerCard with
    | some p => p.board_squares.find? (fun o => o.id = sq.id)
    | none => none
  let mortgagedFlag : Option Bool := ownedPropData.map (fun o => o.is_mortgaged)
  let housesCount : Option Nat := ownedPropData.map (fun o => o.num_houses)
  if mortgagedFlag = some true then "Mortgaged"
  else if sq.type = .PROPERTY ∧ 0 < sq.rent_levels.length then
    let rentIndex :=
      match housesCount with
      | some n => min n (sq.rent_levels.length - 1)
      | none => 0
    "$" ++ toString (sq.rent_levels.getD rentIndex 0)
  else if sq.type = .RAILROAD ∧ 0 < sq.rent_levels.length then
    match ownerCard with
    | some p =>
      let k :=
        match playerCards.find? (fun q => q.my_player_id = p.my_player_id) with
        | some pl => countOwnedOfType boardLayout .RAILROAD pl.my_properties_owned_ids
        | none => 0
      if 0 < k ∧ k ≤ sq.rent_levels.length then
        "$" ++ toString (sq.rent_levels.getD (k - 1) 0)
      else "N/A"
    | none => priceDisplay sq.price
  else if sq.type = .UTILITY ∧ 0 < sq.rent_multipliers.length then
    match ownerCard with
    | some p =>
      let k :=
        match playerCards.find? (fun q => q.my_player_id = p.my_player_id) with
        | some pl => countOwnedOfType boardLayout .UTILITY pl.my_properties_owned_ids
        | none => 0
      if 0 < k ∧ k ≤ sq.rent_multipliers.length then
        toString (sq.rent_multipliers.getD (k - 1) 0) ++ "x Dice Roll"
      else "N/A"
    | none => priceDisplay sq.price
  else if sq.type = .INCOME_TAX ∨ sq.type = .LUXURY_TAX then
    "Pay $" ++ jsOptNat sq.tax_amount
  else "N/A"

/-- C7: for a hovered square whose owner scan succeeds, the displayed rent
follows the rent-schedule model: "Mortgaged" when mortgaged; a PROPERTY shows
`rent_levels[min(num_houses, length-1)]`; a RAILROAD whose owner holds `k`
railroads shows `rent_levels[k-1]`; a UTILITY whose owner holds `k` utilities
shows `rent_multipliers[k-1]` times the dice roll. -/
theorem handleSquareHover_rent_spec
    (playerCards : List PlayerCard) (boardLayout : List BoardSquare)
    (sq : BoardSquare) (p : PlayerCard) (od : OwnedSquareData)
    (hOwner : findOwnerCard playerCards sq.id = some p)
    (hOd : p.board_squares.find? (fun o => o.id = sq.id) = some od)
    (hSelf : playerCards.find? (fun q => q.my_player_id = p.my_player_id) = some p) :
    (od.is_mortgaged = true →
      currentRentDisplay playerCards boardLayout sq = "Mortgaged") ∧
    (od.is_mortgaged = false → sq.type = .PROPERTY → 0 < sq.rent_levels.length →
      currentRentDisplay playerCards boardLayout sq =
        "$" ++ toString (sq.rent_levels.getD
          (min od.num_houses (sq.rent_levels.length - 1)) 0)) ∧
    (od.is_mortgaged = false → sq.type = .RAILROAD → 0 < sq.rent_levels.length →
      0 < countOwnedOfType boardLayout .RAILROAD p.my_properties_owned_ids →
      countOwnedOfType boardLayout .RAILROAD p.my_properties_owned_ids ≤
        sq.rent_levels.length →
      currentRentDisplay playerCards boardLayout sq =
        "$" ++ toString (sq.rent_levels.getD
          (countOwnedOfType boardLayout .RAILROAD p.my_properties_owned_ids - 1) 0)) ∧
    (od.is_mortgaged = false → sq.type = .UTILITY → 0 < sq.rent_multipliers.length →
      0 < countOwnedOfType boardLayout .UTILITY p.my_properties_owned_ids →
      countOwnedOfType boardLayout .UTILITY p.my_properties_owned_ids ≤
        sq.rent_multipliers.length →
      currentRentDisplay playerCards boardLayout sq =
        toString (sq.rent_multipliers.getD
          (countOwnedOfType boardLayout .UTILITY p.my_properties_owned_ids - 1) 0) ++
          "x Dice Roll") := by
  refine ⟨?_, ?_, ?_, ?_⟩
  · intro hM
    simp [currentRentDisplay, hOwner, hOd, hM]
  · intro hM hT hL
    simp [currentRentDisplay, hOwner, hOd, hM, hT, hL]
  · intro hM hT hL hk1 hk2
    simp [currentRentDisplay, hOwner, hOd, hSelf, hM, hT, hL, hk1, hk2]
  · intro hM hT hL hk1 hk2
    simp [currentRentDisplay, hOwner, hOd, hSelf, hM, hT, hL, hk1, hk2]

/-- A mortgaged brown property for the hover witness. -/
def wSquare5 : BoardSquare := ⟨5, .PROPERTY, some 100, none, [2, 10, 30], []⟩

/-- A property with two houses for the hover witness. -/
def wSquare12 : BoardSquare := ⟨12, .PROPERTY, some 140, none, [10, 50, 150], []⟩

/-- One of the owner's two railroads for the hover witness. -/
def wSquare7 : BoardSquare := ⟨7, .RAILROAD, some 200, none, [25, 50, 100, 200], []⟩

/-- The other railroad for the hover witness. -/
def wSquare28 : BoardSquare := ⟨28, .RAILROAD, some 200, none, [25, 50, 100, 200], []⟩

/-- The owner's single utility for the hover witness. -/
def wSquare22 : BoardSquare := ⟨22, .UTILITY, some 150, none, [], [4, 10]⟩

/-- The witness board layout. -/
def wBoard : List BoardSquare := [wSquare5, wSquare7, wSquare12, wSquare22, wSquare28]

/-- The witness owner card: player 1 owning all five squares, square 5
mortgaged, square 12 carrying two houses. -/
def wOwner : PlayerCard :=
  ⟨1, [5, 7, 12, 22, 28],
   [⟨5, true, 0⟩, ⟨7, false, 0⟩, ⟨12, false, 2⟩, ⟨22, false, 0⟩, ⟨28, false, 0⟩]⟩

/-- The witness player list. -/
def wCards : List PlayerCard := [wOwner]

/-- C7 witness: on the concrete board, the mortgaged property shows
"Mortgaged", the two-house property shows its level-2 rent $150, the
two-railroad owner's railroad shows $50, and the one-utility owner's utility
shows "4x Dice Roll". -/
theorem handleSquareHover_rent_spec_witness :
    currentRentDisplay wCards wBoard wSquare5 = "Mortgaged" ∧
    currentRentDisplay wCards wBoard wSquare12 = "$150" ∧
    currentRentDisplay wCards wBoard wSquare28 = "$50" ∧
    currentRentDisplay wCards wBoard wSquare22 = "4x Dice Roll" := by
  refine ⟨?_, ?_, ?_, ?_⟩
  · have h := (handleSquareHover_rent_spec wCards wBoard wSquare5 wOwner
      ⟨5, true, 0⟩ (by decide) (by decide) (by decide)).1 rfl
    simpa using h
  · have h := (handleSquareHover_rent_spec wCards wBoard wSquare12 wOwner
      ⟨12, false, 2⟩ (by decide) (by decide) (by decide)).2.1 rfl rfl (by decide)
    simpa using h
  · have h := (handleSquareHover_rent_spec wCards wBoard wSquare28 wOwner
      ⟨28, false, 0⟩ (by decide) (by decide) (by decide)).2.2.1 rfl rfl
      (by decide) (by decide) (by decide)
    simpa using h
  · have h := (handleSquareHover_rent_spec wCards wBoard wSquare22 wOwner
      ⟨22, false, 0⟩ (by decide) (by decide) (by decide)).2.2.2 rfl rfl
      (by decide) (by decide) (by decide)
    simpa using h

/-- C4 amended witness: `success`, the successor of `pending_confirmation`,
is terminal. -/
theorem paymentFlow_spec_witness : isTerminalStatus .success = true :=
  paymentFlow_spec.2.2.2.1 .success (by decide)
